import Mathlib

/-!
Verification of the lead-generation pipeline of the `leadsgen` repository.

The development shallowly embeds the Python services under
`backend/services/` as pure Lean functions:

* `WorkflowOrchestrator` (`workflow_orchestrator.py`): query building, the
  per-method collection loop, deduplication, and result assembly;
* `LinkedInSearchService` (`linkedin_search.py`): search-query building and
  profile extraction;
* `DatabaseService` (`database_service.py`): the persistence delegate over an
  explicit in-memory store standing for the Supabase tables.

External effects (the four data-source adapters, the HTTP layer, the database
client) are modelled as explicit oracle parameters or explicit store state;
Python exceptions become `Except` values; Python dictionaries keyed by method
name become insertion-ordered association lists.  Python `str.strip`,
`str.lower` and the substring test `in` are embedded by the executable
`pyStrip`, `pyLower` and `strContainsB` below so that every definition
evaluates inside the kernel.
-/

namespace LeadsGen

/-- Embedding of Python whitespace for `str.strip` (space, tab, newline,
carriage return, vertical tab, form feed). -/
def pySpace (c : Char) : Bool :=
  c == ' ' || c == '\t' || c == '\n' || c == '\r' || c == '\x0b' || c == '\x0c'

/-- Embedding of Python `str.strip()`: drop whitespace on both ends. -/
def pyStrip (s : String) : String :=
  ⟨((s.data.dropWhile pySpace).reverse.dropWhile pySpace).reverse⟩

/-- ASCII lower-casing of one character, as Python `str.lower` acts on the
ASCII strings this code base handles. -/
def pyLowerChar (c : Char) : Char :=
  if 'A' ≤ c ∧ c ≤ 'Z' then Char.ofNat (c.toNat + 32) else c

/-- Embedding of Python `str.lower()`. -/
def pyLower (s : String) : String := ⟨s.data.map pyLowerChar⟩

/-- Does the character list start with the pattern list? -/
def startsWithList : List Char → List Char → Bool
  | _, [] => true
  | [], _ :: _ => false
  | a :: as, b :: bs => a == b && startsWithList as bs

/-- Does the pattern list occur as a contiguous sublist? -/
def containsList : List Char → List Char → Bool
  | [], pat => pat.isEmpty
  | a :: as, pat => startsWithList (a :: as) pat || containsList as pat

/-- Embedding of the Python substring test `pat in s`. -/
def strContainsB (s pat : String) : Bool := containsList s.data pat.data

/-- The pattern occurs in the string as a contiguous substring. -/
def strContains (s pat : String) : Prop := ∃ a b, s = a ++ pat ++ b

/-- A candidate lead, the dictionary shape every adapter branch of
`WorkflowOrchestrator._process_method` produces (lines 174-284 of
`workflow_orchestrator.py`). -/
structure Lead where
  company_name : String
  contact_person : String
  contact_email : String
  role : String
  address : String
  phone : String
  website : String
  industry : String
  source : String
deriving DecidableEq

/-- The tenant preference fields read by
`WorkflowOrchestrator._build_search_query`; a missing dictionary key is the
empty string, exactly as `preferences.get(key, "")` yields. -/
structure Preferences where
  company_type : String
  target_industry : String
  locations : String
  geographic_region : String
  keywords : String
  company_size : String
  technology_stack : String
  funding_stage : String
deriving DecidableEq

namespace WorkflowOrchestrator

/-- `company_name = lead.get("company_name", "").strip().lower()` from
`_deduplicate_leads`. -/
def leadCompany (l : Lead) : String := pyLower (pyStrip l.company_name)

/-- `contact_person = lead.get("contact_person", "").strip().lower()` from
`_deduplicate_leads`. -/
def leadContact (l : Lead) : String := pyLower (pyStrip l.contact_person)

/-- `key = f"{company_name}|{contact_person}"` from `_deduplicate_leads`. -/
def leadKey (l : Lead) : String := leadCompany l ++ "|" ++ leadContact l

/-- The loop of `WorkflowOrchestrator._deduplicate_leads` (lines 341-351):
`seen` is the set of keys of the leads kept so far. -/
def dedupAux : List String → List Lead → List Lead
  | _, [] => []
  | seen, l :: ls =>
    if leadKey l ∉ seen ∧ leadCompany l ≠ "" then
      l :: dedupAux (leadKey l :: seen) ls
    else
      dedupAux seen ls

/-- `WorkflowOrchestrator._deduplicate_leads` (lines 336-352). -/
def deduplicate_leads (leads : List Lead) : List Lead := dedupAux [] leads

/-- Declarative restatement of the deduplication policy, following the words
of spec section 4.7 but with the key the code actually uses (the joined
string `company + "|" + contact` over trimmed lower-cased fields): keep the
first candidate of each key whose company name is non-empty, drop every
later candidate with the same key, preserve order. -/
def dedupSpecModel : List Lead → List Lead
  | [] => []
  | l :: ls =>
    if leadCompany l ≠ "" then
      l :: dedupSpecModel (ls.filter (fun y => leadKey y ≠ leadKey l))
    else
      dedupSpecModel ls
termination_by ls => ls.length
decreasing_by
  · exact Nat.lt_succ_of_le (ls.length_filter_le _)
  · exact Nat.lt_succ_of_le (Nat.le_refl _)

/-- A candidate lead carrying only a company name and a contact person, all
remaining fields empty. -/
def mkLead (c p : String) : Lead := ⟨c, p, "", "", "", "", "", "", ""⟩

/-- The body of `WorkflowOrchestrator._build_search_query` (lines 291-334)
over its seven local part values: append each non-empty value, fall back to
`"businesses"` when no part was appended, join with single spaces. -/
def joinQueryParts (a b c d e f g : String) : String :=
  let query_parts :=
    (if a ≠ "" then [a] else []) ++
    (if b ≠ "" then [b] else []) ++
    (if c ≠ "" then [c] else []) ++
    (if d ≠ "" then [d] else []) ++
    (if e ≠ "" then [e] else []) ++
    (if f ≠ "" then [f] else []) ++
    (if g ≠ "" then [g] else [])
  let query_parts2 := if query_parts = [] then ["businesses"] else query_parts
  String.intercalate " " query_parts2

/-- `WorkflowOrchestrator._build_search_query`: the seven appended values in
source order; the third is `locations` with the `geographic_region` fallback
of line 306.  The function is pure string assembly: it reads the preference
set and cannot fail or mutate anything. -/
def build_search_query (p : Preferences) : String :=
  joinQueryParts p.company_type p.target_industry
    (if p.locations ≠ "" then p.locations else p.geographic_region)
    p.keywords p.company_size p.technology_stack p.funding_stage

/-- Spec-side restatement of section 4.1: the seven preference values in
fixed order with the empty ones skipped; the location value is the
`locations` field with the `geographic_region` fallback the code reads. -/
def specQueryParts (p : Preferences) : List String :=
  [p.company_type, p.target_industry,
   (if p.locations ≠ "" then p.locations else p.geographic_region),
   p.keywords, p.company_size, p.technology_stack, p.funding_stage].filter
    (fun s => s ≠ "")

/-- Python dictionary assignment `d[k] = v` for a string-keyed dictionary
modelled as an insertion-ordered association list. -/
def dictSet : List (String × Nat) → String → Nat → List (String × Nat)
  | [], k, v => [(k, v)]
  | (k', v') :: d, k, v =>
    if k' = k then (k, v) :: d else (k', v') :: dictSet d k v

/-- Python dictionary lookup `d.get(k)`. -/
def dictGet : List (String × Nat) → String → Option Nat
  | [], _ => none
  | (k', v') :: d, k => if k' = k then some v' else dictGet d k

/-- The dispatch skeleton of `WorkflowOrchestrator._process_method`
(lines 133-289): the four known method names call the matching adapter
(modelled by the oracle `env`, whose `Except.error` value stands for any
exception the adapter raises); any other name raises
`ValueError(f"Unknown method: {method}")`. -/
def process_method (env : String → Except String (List Lead)) (m : String) :
    Except String (List Lead) :=
  if m = "google_places_api" ∨ m = "pure_llm" ∨ m = "google_custom_search" ∨
      m = "linkedin_search" then
    env m
  else
    .error ("Unknown method: " ++ m)

/-- The leads a method contributes: its adapter result on success, nothing
on an exception. -/
def okLeads (pm : String → Except String (List Lead)) (m : String) : List Lead :=
  match pm m with
  | .ok ls => ls
  | .error _ => []

/-- The method loop of `WorkflowOrchestrator.generate_leads` (lines 79-104):
the accumulator is `(all_leads, method_results, errors)`; a raised exception
is caught, recorded as `"Error in method {method}: {message}"` plus a zero
entry in `method_results`, and the loop continues with the next method. -/
def collect_leads (pm : String → Except String (List Lead)) :
    (List Lead × List (String × Nat) × List String) → List String →
    (List Lead × List (String × Nat) × List String)
  | acc, [] => acc
  | acc, m :: ms =>
    match pm m with
    | .ok leads =>
        collect_leads pm (acc.1 ++ leads, dictSet acc.2.1 m leads.length, acc.2.2) ms
    | .error e =>
        collect_leads pm
          (acc.1, dictSet acc.2.1 m 0,
            acc.2.2 ++ ["Error in method " ++ m ++ ": " ++ e]) ms

end WorkflowOrchestrator

namespace DatabaseService

/-- A row of the `companies` table, with the columns the service reads back. -/
structure CompanyRow where
  id : Nat
  tenant_id : String
  name : String
deriving DecidableEq

/-- A row of the `leads` table, with the columns the duplicate lookup of
`_create_lead` filters on; the remaining inserted columns (email, role,
status, tier fields, timestamps) are never read back by the service. -/
structure LeadRow where
  id : Nat
  tenant_id : String
  company_name : String
  contact_person : String
deriving DecidableEq

/-- The database state: the two tables plus a fresh-id counter standing for
id generation on insert. -/
structure Store where
  companies : List CompanyRow
  leads : List LeadRow
  nextId : Nat
deriving DecidableEq

/-- `DatabaseService._get_or_create_company` (lines 88-129) on the store
model: look the company up by exact `(tenant_id, name)`, create it when
absent; inserts succeed and return the fresh row id. -/
def get_or_create_company (s : Store) (tenant_id company_name : String) :
    Option Nat × Store :=
  match s.companies.find? (fun c => c.tenant_id == tenant_id && c.name == company_name) with
  | some c => (some c.id, s)
  | none =>
      (some s.nextId,
       { s with
         companies := s.companies ++ [⟨s.nextId, tenant_id, company_name⟩],
         nextId := s.nextId + 1 })

/-- `DatabaseService._create_lead` (lines 131-213) on the store model: when
the stripped contact person is non-empty, skip (return no id) if a lead with
the same `(tenant_id, company_name, contact_person)` already exists;
otherwise insert, storing `"Unknown"` in place of an empty contact person.
The classification branch only fills tier columns (not modelled, and not
consulted by any lookup); inserts succeed and return the fresh row id. -/
def create_lead (s : Store) (tenant_id company_name : String) (lead : Lead) :
    Option Nat × Store :=
  let contact_person := pyStrip lead.contact_person
  if contact_person ≠ "" ∧
      s.leads.any (fun r =>
        r.tenant_id == tenant_id && r.company_name == company_name &&
          r.contact_person == contact_person) = true then
    (none, s)
  else
    (some s.nextId,
     { s with
       leads := s.leads ++
         [⟨s.nextId, tenant_id, company_name,
           if contact_person = "" then "Unknown" else contact_person⟩],
       nextId := s.nextId + 1 })

/-- The `{"leads_created": n, "companies_created": m}` dictionary returned
by `DatabaseService.save_leads_and_companies`. -/
structure SaveResult where
  leads_created : Nat
  companies_created : Nat
deriving DecidableEq

/-- `DatabaseService.save_leads_and_companies` (lines 29-86): per lead, skip
empty or `"Unknown Company"` names, count a company whenever
`_get_or_create_company` returned an id, then count the lead whenever
`_create_lead` returned an id. -/
def save_leads_and_companies : Store → List Lead → String → SaveResult × Store
  | s, [], _ => (⟨0, 0⟩, s)
  | s, lead :: rest, tenant_id =>
    let company_name := pyStrip lead.company_name
    if company_name = "" ∨ company_name = "Unknown Company" then
      save_leads_and_companies s rest tenant_id
    else
      let gc := get_or_create_company s tenant_id company_name
      let cl := create_lead gc.2 tenant_id company_name lead
      let res := save_leads_and_companies cl.2 rest tenant_id
      (⟨(if cl.1.isSome then 1 else 0) + res.1.leads_created,
        (if gc.1.isSome then 1 else 0) + res.1.companies_created⟩, res.2)

end DatabaseService

namespace WorkflowOrchestrator

/-- The dictionary returned by `WorkflowOrchestrator.generate_leads`
(lines 124-131), with `errors if errors else None` as an `Option`. -/
structure GenResult where
  success : Bool
  leads_created : Nat
  companies_created : Nat
  method_results : List (String × Nat)
  total_leads_found : Nat
  errors : Option (List String)
deriving DecidableEq

/-- Result of one `generate_leads` invocation together with the final
database state and whether `save_leads_and_companies` was invoked. -/
structure GenOutcome where
  result : GenResult
  finalStore : DatabaseService.Store
  saveCalled : Bool
deriving DecidableEq

/-- `WorkflowOrchestrator.generate_leads` (lines 44-131): run the method
loop, deduplicate, save when a database service is configured and the
deduplicated batch is non-empty, and assemble the result dictionary.
`env` is the adapter oracle behind `_process_method`; `hasDb` is
`self.database_service is not None`.  The function is total: every adapter
exception is an `Except.error` consumed by `collect_leads`, so no exception
propagates to the caller. -/
def generate_leads (env : String → Except String (List Lead)) (hasDb : Bool)
    (store : DatabaseService.Store) (methods : List String) (tenant_id : String) :
    GenOutcome :=
  let acc := collect_leads (process_method env) ([], [], []) methods
  let deduplicated := deduplicate_leads acc.1
  let sv :=
    if hasDb = true ∧ deduplicated ≠ [] then
      let r := DatabaseService.save_leads_and_companies store deduplicated tenant_id
      (r.1, r.2, true)
    else
      ((⟨0, 0⟩ : DatabaseService.SaveResult), store, false)
  { result := {
      success := decide (0 < sv.1.leads_created)
      leads_created := sv.1.leads_created
      companies_created := sv.1.companies_created
      method_results := acc.2.1
      total_leads_found := deduplicated.length
      errors := if acc.2.2 = [] then none else some acc.2.2 }
    finalStore := sv.2.1
    saveCalled := sv.2.2 }

end WorkflowOrchestrator

namespace LinkedInSearchService

/-- `LinkedInSearchService._build_search_query` (lines 108-127). -/
def build_search_query (position location experience_operator : String)
    (experience_years : Int) : String :=
  let query := "site:linkedin.com/in " ++ position ++ " " ++ location
  if 0 < experience_years then
    let years_text := toString experience_years ++ " years"
    if experience_operator = ">" then
      query ++ " \"" ++ years_text ++ "\" OR \"" ++ toString experience_years ++ "+ years\""
    else if experience_operator = "<" then
      query ++ " \"less than " ++ years_text ++ "\" OR \"junior\" OR \"entry level\""
    else
      query ++ " \"" ++ years_text ++ "\""
  else query

/-- The profile dictionary `_extract_profile` returns. -/
structure Profile where
  name : String
  company : String
  role : String
  url : String
  snippet : String
deriving DecidableEq

/-- `LinkedInSearchService._extract_profile` (lines 177-203), over the
values produced by the three extraction heuristics `_extract_name`,
`_extract_company` and `_extract_role` (pure text heuristics that enter
here only through their results). -/
def extract_profile (url name company role snippet : String) : Option Profile :=
  if url = "" ∨ strContainsB url "linkedin.com/in/" = false then none
  else if name = "Unknown" ∧ company = "Unknown Company" then none
  else some ⟨name, company, role, url, snippet⟩

end LinkedInSearchService

/-! ## Theorems -/

namespace WorkflowOrchestrator

theorem dedupAux_nil (seen : List String) : dedupAux seen [] = [] := rfl

theorem dedupAux_cons (seen : List String) (l : Lead) (ls : List Lead) :
    dedupAux seen (l :: ls) =
      if leadKey l ∉ seen ∧ leadCompany l ≠ "" then
        l :: dedupAux (leadKey l :: seen) ls
      else
        dedupAux seen ls := rfl

theorem dedupSpecModel_nil : dedupSpecModel [] = [] := by rw [dedupSpecModel]

theorem dedupSpecModel_cons (l : Lead) (ls : List Lead) :
    dedupSpecModel (l :: ls) =
      if leadCompany l ≠ "" then
        l :: dedupSpecModel (ls.filter (fun y => leadKey y ≠ leadKey l))
      else
        dedupSpecModel ls := by rw [dedupSpecModel]

theorem dedupAux_sublist (seen : List String) (ls : List Lead) :
    (dedupAux seen ls).Sublist ls := by
  induction ls generalizing seen with
  | nil => simp [dedupAux_nil]
  | cons l ls ih =>
    rw [dedupAux_cons]
    split
    · exact (ih (leadKey l :: seen)).cons₂ l
    · exact (ih seen).cons l

theorem dedupAux_congr (seen seen' : List String) (ls : List Lead)
    (h : ∀ x, x ∈ seen ↔ x ∈ seen') :
    dedupAux seen ls = dedupAux seen' ls := by
  induction ls generalizing seen seen' with
  | nil => rfl
  | cons l ls ih =>
    rw [dedupAux_cons, dedupAux_cons]
    by_cases hc : leadKey l ∉ seen ∧ leadCompany l ≠ ""
    · rw [if_pos hc, if_pos ⟨fun hm => hc.1 ((h _).mpr hm), hc.2⟩]
      have hiff : ∀ x, x ∈ leadKey l :: seen ↔ x ∈ leadKey l :: seen' := by
        intro x
        simp only [List.mem_cons]
        exact or_congr Iff.rfl (h x)
      rw [ih _ _ hiff]
    · rw [if_neg hc, if_neg ?_, ih _ _ h]
      intro hc'
      exact hc ⟨fun hm => hc'.1 ((h _).mp hm), hc'.2⟩

theorem dedupAux_cons_key (k : String) (seen : List String) (ls : List Lead) :
    dedupAux (k :: seen) ls = dedupAux seen (ls.filter (fun y => leadKey y ≠ k)) := by
  induction ls generalizing seen with
  | nil => rfl
  | cons y ys ih =>
    by_cases hk : leadKey y = k
    · have h1 : dedupAux (k :: seen) (y :: ys) = dedupAux (k :: seen) ys := by
        rw [dedupAux_cons, if_neg]
        intro hc
        exact hc.1 (by simp [hk])
      have h2 : (y :: ys).filter (fun y => leadKey y ≠ k) =
          ys.filter (fun y => leadKey y ≠ k) := by
        simp [List.filter_cons, hk]
      rw [h1, h2, ih]
    · have h2 : (y :: ys).filter (fun y => leadKey y ≠ k) =
          y :: ys.filter (fun y => leadKey y ≠ k) := by
        simp [List.filter_cons, hk]
      rw [h2, dedupAux_cons, dedupAux_cons]
      by_cases hc : leadKey y ∉ seen ∧ leadCompany y ≠ ""
      · rw [if_pos ⟨by simp [hk, hc.1], hc.2⟩, if_pos hc]
        rw [dedupAux_congr (leadKey y :: k :: seen) (k :: leadKey y :: seen) ys
          (by intro x; simp only [List.mem_cons]; tauto)]
        rw [ih]
      · rw [if_neg ?_, if_neg hc, ih]
        intro hc'
        exact hc ⟨fun hm => hc'.1 (by simp [hm]), hc'.2⟩

theorem deduplicate_leads_eq_specModel (ls : List Lead) :
    deduplicate_leads ls = dedupSpecModel ls := by
  have main : ∀ n (ls : List Lead), ls.length ≤ n → dedupAux [] ls = dedupSpecModel ls := by
    intro n
    induction n with
    | zero =>
      intro ls hls
      rw [List.length_eq_zero.mp (Nat.le_zero.mp hls), dedupAux_nil, dedupSpecModel_nil]
    | succ n ih =>
      intro ls hls
      match ls with
      | [] => rw [dedupAux_nil, dedupSpecModel_nil]
      | l :: ls =>
        by_cases hc : leadCompany l ≠ ""
        · rw [dedupAux_cons, dedupSpecModel_cons,
            if_pos ⟨by simp, hc⟩, if_pos hc, dedupAux_cons_key]
          have hlen : (ls.filter (fun y => leadKey y ≠ leadKey l)).length ≤ n :=
            le_trans (ls.length_filter_le _) (Nat.succ_le_succ_iff.mp hls)
          rw [ih _ hlen]
        · rw [dedupAux_cons, dedupSpecModel_cons, if_neg (by tauto), if_neg hc]
          exact ih ls (Nat.succ_le_succ_iff.mp hls)
  exact main ls.length ls (Nat.le_refl _)

theorem dedupAux_mem {seen : List String} {ls : List Lead} {l : Lead}
    (hl : l ∈ dedupAux seen ls) : leadCompany l ≠ "" ∧ leadKey l ∉ seen := by
  induction ls generalizing seen with
  | nil => simp [dedupAux_nil] at hl
  | cons x xs ih =>
    rw [dedupAux_cons] at hl
    split at hl
    · rename_i hx
      rcases List.mem_cons.mp hl with h | h
      · subst h; exact ⟨hx.2, hx.1⟩
      · have hm := ih h
        exact ⟨hm.1, fun hmem => hm.2 (by simp [hmem])⟩
    · exact ih hl

theorem dedupAux_pairwise (seen : List String) (ls : List Lead) :
    (dedupAux seen ls).Pairwise (fun a b => leadKey a ≠ leadKey b) := by
  induction ls generalizing seen with
  | nil => simp [dedupAux_nil]
  | cons x xs ih =>
    rw [dedupAux_cons]
    split
    · refine List.Pairwise.cons ?_ (ih _)
      intro b hb
      have hm := (dedupAux_mem hb).2
      intro hk
      exact hm (by simp [hk])
    · exact ih seen

theorem dedupAux_of_clean (seen : List String) (ls : List Lead)
    (h1 : ∀ l ∈ ls, leadCompany l ≠ "")
    (h2 : ls.Pairwise (fun a b => leadKey a ≠ leadKey b))
    (h3 : ∀ l ∈ ls, leadKey l ∉ seen) :
    dedupAux seen ls = ls := by
  induction ls generalizing seen with
  | nil => rfl
  | cons x xs ih =>
    rw [dedupAux_cons, if_pos ⟨h3 x (by simp), h1 x (by simp)⟩]
    congr 1
    refine ih _ (fun l hl => h1 l (by simp [hl])) h2.of_cons ?_
    intro l hl
    simp only [List.mem_cons]
    rintro (hk | hk)
    · exact (List.pairwise_cons.mp h2).1 l hl hk.symm
    · exact h3 l (by simp [hl]) hk

theorem deduplicate_leads_idem (ls : List Lead) :
    deduplicate_leads (deduplicate_leads ls) = deduplicate_leads ls := by
  apply dedupAux_of_clean
  · exact fun l hl => (dedupAux_mem hl).1
  · exact dedupAux_pairwise [] ls
  · simp

/-- C3 counterexample: the deduplication key is the joined string
`f"{company}|{contact}"`, so two candidates with distinct trimmed
lower-cased `(company_name, contact_person)` pairs collide whenever a field
itself contains `"|"`: with `("a|b", "c")` followed by `("a", "b|c")` the
second candidate has an unseen pair and a non-empty company yet is dropped,
refuting the claim that a candidate is kept whenever its pair was not seen
earlier (and that distinct pairs are never merged). -/
theorem dedup_pair_key_counterexample :
    deduplicate_leads [mkLead "a|b" "c", mkLead "a" "b|c"] = [mkLead "a|b" "c"] ∧
    (leadCompany (mkLead "a" "b|c"), leadContact (mkLead "a" "b|c")) ≠
      (leadCompany (mkLead "a|b" "c"), leadContact (mkLead "a|b" "c")) ∧
    leadCompany (mkLead "a" "b|c") ≠ "" := by decide

/-- C3 (amended): `_deduplicate_leads` keeps a candidate if and only if its
joined key string (trimmed lower-cased company, `"|"`, trimmed lower-cased
contact) was not seen earlier and its company name is non-empty after
trimming; the first candidate of each key in input order is the one kept
(`dedupSpecModel`), and the output is a sublist of the input, so kept
candidates appear in their original relative order. -/
theorem dedup_first_seen_wins (xs : List Lead) :
    deduplicate_leads xs = dedupSpecModel xs ∧ (deduplicate_leads xs).Sublist xs :=
  ⟨deduplicate_leads_eq_specModel xs, dedupAux_sublist [] xs⟩

/-- C4: deduplication is idempotent, never lengthens the list, and maps the
empty list to the empty list. -/
theorem dedup_idempotent (xs : List Lead) :
    deduplicate_leads (deduplicate_leads xs) = deduplicate_leads xs ∧
    (deduplicate_leads xs).length ≤ xs.length ∧
    deduplicate_leads ([] : List Lead) = [] :=
  ⟨deduplicate_leads_idem xs, (dedupAux_sublist [] xs).length_le, rfl⟩

set_option maxHeartbeats 2000000 in
theorem joinQueryParts_filter (a b c d e f g : String) :
    joinQueryParts a b c d e f g =
      (let parts := [a, b, c, d, e, f, g].filter (fun s => s ≠ "")
       if parts = [] then "businesses" else String.intercalate " " parts) := by
  by_cases h1 : a = "" <;>
    by_cases h2 : b = "" <;>
    by_cases h3 : c = "" <;>
    by_cases h4 : d = "" <;>
    by_cases h5 : e = "" <;>
    by_cases h6 : f = "" <;>
    by_cases h7 : g = "" <;>
    simp [joinQueryParts, h1, h2, h3, h4, h5, h6, h7,
      show String.intercalate " " ["businesses"] = "businesses" from rfl]

/-- C7: the generic query is the space-joined concatenation, in the fixed
order company type, target industry, locations (with the geographic-region
fallback the code reads), keywords, company size, technology stack, funding
stage, of exactly the non-empty fields, and the literal `"businesses"` when
every field is empty.  The Lean embedding is a pure function, matching the
no-side-effect, no-failure contract. -/
theorem build_search_query_spec (p : Preferences) :
    build_search_query p =
      if specQueryParts p = [] then "businesses"
      else String.intercalate " " (specQueryParts p) := by
  rw [build_search_query, joinQueryParts_filter]
  rfl

end WorkflowOrchestrator

namespace LinkedInSearchService

/-- C5: the experience clause of the LinkedIn query.  With `years > 0` and
operator `">"` the query is the base query followed by the quoted
`"{years} years"` and `"{years}+ years"` OR-alternatives (each a substring);
with `"<"` it carries the quoted `"less than {years} years"`, `"junior"`
and `"entry level"` alternatives; with any other operator exactly the
quoted `"{years} years"`; and with `years ≤ 0` the query is exactly
`site:linkedin.com/in {position} {location}`. -/
theorem experience_clause (position location op : String) (years : Int) :
    (0 < years → op = ">" →
      build_search_query position location op years =
        ("site:linkedin.com/in " ++ position ++ " " ++ location) ++ " \"" ++
          (toString years ++ " years") ++ "\" OR \"" ++ toString years ++ "+ years\"" ∧
      strContains (build_search_query position location op years)
        ("\"" ++ toString years ++ " years\"") ∧
      strContains (build_search_query position location op years)
        ("\"" ++ toString years ++ "+ years\"")) ∧
    (0 < years → op = "<" →
      build_search_query position location op years =
        ("site:linkedin.com/in " ++ position ++ " " ++ location) ++ " \"less than " ++
          (toString years ++ " years") ++ "\" OR \"junior\" OR \"entry level\"" ∧
      strContains (build_search_query position location op years)
        ("\"less than " ++ toString years ++ " years\"") ∧
      strContains (build_search_query position location op years) "\"junior\"" ∧
      strContains (build_search_query position location op years) "\"entry level\"") ∧
    (0 < years → op ≠ ">" → op ≠ "<" →
      build_search_query position location op years =
        ("site:linkedin.com/in " ++ position ++ " " ++ location) ++ " \"" ++
          (toString years ++ " years") ++ "\"") ∧
    (years ≤ 0 →
      build_search_query position location op years =
        "site:linkedin.com/in " ++ position ++ " " ++ location) := by
  refine ⟨?_, ?_, ?_, ?_⟩
  · intro hy hop
    have hq : build_search_query position location op years =
        ("site:linkedin.com/in " ++ position ++ " " ++ location) ++ " \"" ++
          (toString years ++ " years") ++ "\" OR \"" ++ toString years ++ "+ years\"" := by
      simp [build_search_query, hy, hop]
    refine ⟨hq, ?_, ?_⟩
    · refine ⟨("site:linkedin.com/in " ++ position ++ " " ++ location) ++ " ",
        " OR \"" ++ toString years ++ "+ years\"", ?_⟩
      rw [hq]
      rw [show (" \"" : String) = " " ++ "\"" from rfl,
        show ("\" OR \"" : String) = "\"" ++ " OR \"" from rfl,
        show (" years\"" : String) = " years" ++ "\"" from rfl]
      simp only [String.append_assoc]
    · refine ⟨("site:linkedin.com/in " ++ position ++ " " ++ location) ++ " \"" ++
        (toString years ++ " years") ++ "\" OR ", "", ?_⟩
      rw [hq]
      rw [show ("\" OR \"" : String) = "\" OR " ++ "\"" from rfl]
      simp only [String.append_assoc, String.append_empty]
  · intro hy hop
    have hq : build_search_query position location op years =
        ("site:linkedin.com/in " ++ position ++ " " ++ location) ++ " \"less than " ++
          (toString years ++ " years") ++ "\" OR \"junior\" OR \"entry level\"" := by
      simp [build_search_query, hy, hop]
    refine ⟨hq, ?_, ?_, ?_⟩
    · refine ⟨("site:linkedin.com/in " ++ position ++ " " ++ location) ++ " ",
        " OR \"junior\" OR \"entry level\"", ?_⟩
      rw [hq]
      rw [show (" \"less than " : String) = " " ++ "\"less than " from rfl,
        show ("\" OR \"junior\" OR \"entry level\"" : String) =
          "\"" ++ " OR \"junior\" OR \"entry level\"" from rfl,
        show (" years\"" : String) = " years" ++ "\"" from rfl]
      simp only [String.append_assoc]
    · refine ⟨("site:linkedin.com/in " ++ position ++ " " ++ location) ++ " \"less than " ++
        (toString years ++ " years") ++ "\" OR ", " OR \"entry level\"", ?_⟩
      rw [hq]
      rw [show ("\" OR \"junior\" OR \"entry level\"" : String) =
        "\" OR " ++ "\"junior\"" ++ " OR \"entry level\"" from rfl]
      simp only [String.append_assoc]
    · refine ⟨("site:linkedin.com/in " ++ position ++ " " ++ location) ++ " \"less than " ++
        (toString years ++ " years") ++ "\" OR \"junior\" OR ", "", ?_⟩
      rw [hq]
      rw [show ("\" OR \"junior\" OR \"entry level\"" : String) =
        "\" OR \"junior\" OR " ++ "\"entry level\"" from rfl]
      simp only [String.append_assoc, String.append_empty]
  · intro hy hop1 hop2
    simp [build_search_query, hy, hop1, hop2]
  · intro hy
    simp [build_search_query, Int.not_lt.mpr hy]

/-- Witness for C5 at concrete inputs: operator `">"` with 5 years, `"<"`
with 3 years, `"="` with 2 years, and `">"` with 0 years. -/
theorem experience_clause_witness :
    (build_search_query "Engineer" "Berlin" ">" 5 =
      ("site:linkedin.com/in " ++ "Engineer" ++ " " ++ "Berlin") ++ " \"" ++
        (toString (5 : Int) ++ " years") ++ "\" OR \"" ++ toString (5 : Int) ++ "+ years\"") ∧
    strContains (build_search_query "Engineer" "Berlin" ">" 5)
      ("\"" ++ toString (5 : Int) ++ " years\"") ∧
    strContains (build_search_query "Engineer" "Berlin" "<" 3) "\"junior\"" ∧
    (build_search_query "Engineer" "Berlin" "=" 2 =
      ("site:linkedin.com/in " ++ "Engineer" ++ " " ++ "Berlin") ++ " \"" ++
        (toString (2 : Int) ++ " years") ++ "\"") ∧
    (build_search_query "Engineer" "Berlin" ">" 0 =
      "site:linkedin.com/in " ++ "Engineer" ++ " " ++ "Berlin") :=
  ⟨((experience_clause "Engineer" "Berlin" ">" 5).1 (by decide) rfl).1,
   ((experience_clause "Engineer" "Berlin" ">" 5).1 (by decide) rfl).2.1,
   ((experience_clause "Engineer" "Berlin" "<" 3).2.1 (by decide) rfl).2.2.1,
   ((experience_clause "Engineer" "Berlin" "=" 2).2.2.1 (by decide) (by decide) (by decide)),
   ((experience_clause "Engineer" "Berlin" ">" 0).2.2.2 (by decide))⟩

/-- C6: for a search-result item whose link is a LinkedIn profile URL (the only
items `search_profiles` feeds to `_extract_profile`), the extraction returns
no candidate exactly when the name heuristic returned the `"Unknown"`
sentinel and the company heuristic returned the `"Unknown Company"` sentinel
simultaneously; when at least one of the two is non-sentinel a profile
record is returned. -/
theorem extract_profile_minimum_information
    (url name company role snippet : String)
    (hurl : strContainsB url "linkedin.com/in/" = true) :
    extract_profile url name company role snippet = none ↔
      (name = "Unknown" ∧ company = "Unknown Company") := by
  have hne : ¬(url = "" ∨ strContainsB url "linkedin.com/in/" = false) := by
    rintro (h | h)
    · rw [h] at hurl
      exact absurd hurl (by decide)
    · rw [hurl] at h
      cases h
  rw [extract_profile, if_neg hne]
  split_ifs with h
  · simp [h]
  · simp [h]

/-- Witness for C6 at concrete inputs: one non-sentinel name (a record is
returned) and both sentinels (the result is discarded). -/
theorem extract_profile_minimum_information_witness :
    (extract_profile "https://www.linkedin.com/in/jane-doe" "Jane Doe"
        "Unknown Company" "CEO" "snippet text" = none ↔
      ("Jane Doe" = "Unknown" ∧ "Unknown Company" = "Unknown Company")) ∧
    (extract_profile "https://www.linkedin.com/in/jane-doe" "Unknown"
        "Unknown Company" "CEO" "snippet text" = none ↔
      ("Unknown" = "Unknown" ∧ "Unknown Company" = "Unknown Company")) :=
  ⟨extract_profile_minimum_information _ "Jane Doe" "Unknown Company" _ _ (by decide),
   extract_profile_minimum_information _ "Unknown" "Unknown Company" _ _ (by decide)⟩

end LinkedInSearchService

namespace DatabaseService

theorem get_or_create_company_isSome (s : Store) (t n : String) :
    (get_or_create_company s t n).1.isSome = true := by
  rw [get_or_create_company]
  cases s.companies.find? (fun c => c.tenant_id == t && c.name == n) <;> rfl

theorem get_or_create_company_leads (s : Store) (t n : String) :
    (get_or_create_company s t n).2.leads = s.leads := by
  rw [get_or_create_company]
  cases s.companies.find? (fun c => c.tenant_id == t && c.name == n) <;> rfl

theorem create_lead_leads_length (s : Store) (t n : String) (l : Lead) :
    (create_lead s t n l).2.leads.length =
      s.leads.length + (if (create_lead s t n l).1.isSome then 1 else 0) := by
  rw [create_lead]
  split_ifs <;> simp_all

theorem save_leads_length (xs : List Lead) (s : Store) (t : String) :
    (save_leads_and_companies s xs t).2.leads.length =
      s.leads.length + (save_leads_and_companies s xs t).1.leads_created := by
  induction xs generalizing s with
  | nil => rfl
  | cons lead rest ih =>
    rw [save_leads_and_companies]
    split_ifs with h
    · exact ih s
    · dsimp only
      rw [ih, create_lead_leads_length, get_or_create_company_leads]
      omega

/-- C10: the `companies_created` counter of `save_leads_and_companies` is
incremented once per processed lead (every lead whose trimmed company name
is neither empty nor `"Unknown Company"`), because the company
lookup-or-create returns an id both for freshly created and for pre-existing
companies; it therefore counts per lead, not distinct new companies, and the
same company is counted once for each lead that references it. -/
theorem companies_counter_per_lead (s : Store) (xs : List Lead) (t : String) :
    (save_leads_and_companies s xs t).1.companies_created =
      (xs.filter (fun l =>
        pyStrip l.company_name ≠ "" ∧ pyStrip l.company_name ≠ "Unknown Company")).length := by
  induction xs generalizing s with
  | nil => rfl
  | cons lead rest ih =>
    rw [save_leads_and_companies]
    split_ifs with h
    · rw [List.filter_cons_of_neg (by rcases h with h | h <;> simp [h]), ih]
    · push_neg at h
      dsimp only
      rw [List.filter_cons_of_pos (by simp [h.1, h.2]), ih]
      simp [get_or_create_company_isSome]
      omega

/-- C9 (amended): `_create_lead` returns no id (skips the lead as a
duplicate) if and only if the trimmed contact person of the incoming lead is
non-empty and a lead row with exactly the same
`(tenant_id, company_name, contact_person)` triple already exists; the
duplicate lookup is skipped entirely for leads whose contact person is empty
after trimming, which are always inserted (with `"Unknown"` stored as the
contact person). -/
theorem create_lead_duplicate_iff (s : Store) (tenant_id company_name : String) (lead : Lead) :
    (create_lead s tenant_id company_name lead).1 = none ↔
      (pyStrip lead.contact_person ≠ "" ∧
        ∃ r ∈ s.leads, r.tenant_id = tenant_id ∧ r.company_name = company_name ∧
          r.contact_person = pyStrip lead.contact_person) := by
  have hiff : (pyStrip lead.contact_person ≠ "" ∧
      s.leads.any (fun r =>
        r.tenant_id == tenant_id && r.company_name == company_name &&
          r.contact_person == pyStrip lead.contact_person) = true) ↔
      (pyStrip lead.contact_person ≠ "" ∧
        ∃ r ∈ s.leads, r.tenant_id = tenant_id ∧ r.company_name = company_name ∧
          r.contact_person = pyStrip lead.contact_person) := by
    simp [List.any_eq_true, Bool.and_eq_true, beq_iff_eq, and_assoc]
  rw [create_lead]
  split_ifs with h
  · exact iff_of_true rfl (hiff.mp h)
  · exact iff_of_false (by simp) (fun hr => h (hiff.mpr hr))

/-- C9 counterexample: a lead whose contact person is empty is inserted
(an id is returned) even though a lead row with exactly the same
`(tenant_id, company_name, contact_person)` triple is already in the store,
so duplicate detection is not an exact-triple match for all leads. -/
theorem create_lead_empty_contact_counterexample :
    (create_lead ⟨[], [⟨0, "t", "acme", ""⟩], 1⟩ "t" "acme"
        ⟨"acme", "", "", "", "", "", "", "", ""⟩).1 = some 1 ∧
    (⟨0, "t", "acme", ""⟩ : LeadRow) ∈ (⟨[], [⟨0, "t", "acme", ""⟩], 1⟩ : Store).leads ∧
    (⟨0, "t", "acme", ""⟩ : LeadRow).tenant_id = "t" ∧
    (⟨0, "t", "acme", ""⟩ : LeadRow).company_name = "acme" ∧
    (⟨0, "t", "acme", ""⟩ : LeadRow).contact_person =
      (⟨"acme", "", "", "", "", "", "", "", ""⟩ : Lead).contact_person := by
  refine ⟨by decide, by decide, rfl, rfl, rfl⟩

end DatabaseService

namespace WorkflowOrchestrator

theorem dictGet_dictSet_self (d : List (String × Nat)) (k : String) (v : Nat) :
    dictGet (dictSet d k v) k = some v := by
  induction d with
  | nil => simp [dictSet, dictGet]
  | cons p d ih =>
    rw [dictSet]
    split_ifs with h
    · simp [dictGet]
    · rw [dictGet, if_neg h]
      exact ih

theorem dictGet_dictSet_ne (d : List (String × Nat)) (k k' : String) (v : Nat)
    (h : k ≠ k') : dictGet (dictSet d k v) k' = dictGet d k' := by
  induction d with
  | nil => simp [dictSet, dictGet, h]
  | cons p d ih =>
    rw [dictSet]
    split_ifs with hk
    · rw [dictGet, if_neg h, dictGet, if_neg (by rw [hk]; exact h)]
    · rw [dictGet, dictGet]
      split_ifs with hk'
      · rfl
      · exact ih

theorem collect_leads_fst (pm : String → Except String (List Lead))
    (ms : List String) (acc : List Lead × List (String × Nat) × List String) :
    (collect_leads pm acc ms).1 = acc.1 ++ (ms.map (okLeads pm)).flatten := by
  induction ms generalizing acc with
  | nil => simp [collect_leads]
  | cons m ms ih =>
    rw [collect_leads]
    cases hpm : pm m with
    | ok leads => simp [ih, okLeads, hpm]
    | error e => simp [ih, okLeads, hpm]

theorem collect_leads_mres_stable (pm : String → Except String (List Lead))
    (ms : List String) (acc : List Lead × List (String × Nat) × List String)
    (m : String) (msg : String) (hf : pm m = .error msg)
    (hacc : dictGet acc.2.1 m = some 0) :
    dictGet (collect_leads pm acc ms).2.1 m = some 0 := by
  induction ms generalizing acc with
  | nil => exact hacc
  | cons m' ms ih =>
    rw [collect_leads]
    by_cases hm : m' = m
    · subst hm
      rw [hf]
      exact ih _ (by simp [dictGet_dictSet_self])
    · cases hpm : pm m' with
      | ok leads => exact ih _ (by simpa [dictGet_dictSet_ne _ _ _ _ hm] using hacc)
      | error e => exact ih _ (by simpa [dictGet_dictSet_ne _ _ _ _ hm] using hacc)

theorem collect_leads_mres (pm : String → Except String (List Lead))
    (ms : List String) (acc : List Lead × List (String × Nat) × List String)
    (m : String) (msg : String) (hm : m ∈ ms) (hf : pm m = .error msg) :
    dictGet (collect_leads pm acc ms).2.1 m = some 0 := by
  induction ms generalizing acc with
  | nil => cases hm
  | cons m' ms ih =>
    rw [collect_leads]
    by_cases hmm : m' = m
    · subst hmm
      rw [hf]
      exact collect_leads_mres_stable pm ms _ m' msg hf (by simp [dictGet_dictSet_self])
    · rcases List.mem_cons.mp hm with h | h
      · exact absurd h.symm hmm
      · cases hpm : pm m' with
        | ok leads => exact ih _ h
        | error e => exact ih _ h

theorem collect_leads_errs_mono (pm : String → Except String (List Lead))
    (ms : List String) (acc : List Lead × List (String × Nat) × List String) :
    ∃ t, (collect_leads pm acc ms).2.2 = acc.2.2 ++ t := by
  induction ms generalizing acc with
  | nil => exact ⟨[], by simp [collect_leads]⟩
  | cons m ms ih =>
    rw [collect_leads]
    cases hpm : pm m with
    | ok leads => exact ih _
    | error e =>
      obtain ⟨t, ht⟩ := ih (acc.1, dictSet acc.2.1 m 0,
        acc.2.2 ++ ["Error in method " ++ m ++ ": " ++ e])
      exact ⟨["Error in method " ++ m ++ ": " ++ e] ++ t, by simp [ht]⟩

theorem collect_leads_err_mem (pm : String → Except String (List Lead))
    (ms : List String) (acc : List Lead × List (String × Nat) × List String)
    (m : String) (msg : String) (hm : m ∈ ms) (hf : pm m = .error msg) :
    ("Error in method " ++ m ++ ": " ++ msg) ∈ (collect_leads pm acc ms).2.2 := by
  induction ms generalizing acc with
  | nil => cases hm
  | cons m' ms ih =>
    rw [collect_leads]
    by_cases hmm : m' = m
    · subst hmm
      rw [hf]
      obtain ⟨t, ht⟩ := collect_leads_errs_mono pm ms
        (acc.1, dictSet acc.2.1 m' 0,
          acc.2.2 ++ ["Error in method " ++ m' ++ ": " ++ msg])
      rw [ht]
      simp
    · rcases List.mem_cons.mp hm with h | h
      · exact absurd h.symm hmm
      · cases hpm : pm m' with
        | ok leads => exact ih _ h
        | error e => exact ih _ h

/-- C1: the `success` field of a `generate_leads` result is true exactly
when its `leads_created` count is positive, and `leads_created` equals the
number of lead rows the invocation actually added to the store, whatever
the adapters did. -/
theorem generate_leads_success_iff
    (env : String → Except String (List Lead)) (hasDb : Bool)
    (store : DatabaseService.Store) (methods : List String) (tenant_id : String) :
    ((generate_leads env hasDb store methods tenant_id).result.success = true ↔
      0 < (generate_leads env hasDb store methods tenant_id).result.leads_created) ∧
    (generate_leads env hasDb store methods tenant_id).finalStore.leads.length =
      store.leads.length +
        (generate_leads env hasDb store methods tenant_id).result.leads_created := by
  constructor
  · simp [generate_leads]
  · rw [generate_leads]
    dsimp only
    split_ifs with h
    · exact DatabaseService.save_leads_length _ _ _
    · simp

/-- C2: when the adapter call for a requested method fails (any exception,
including the unknown-method `ValueError`), `generate_leads` records
`"Error in method {method}: {message}"` in the error list and `0` for that
method in `method_results`, keeps processing every remaining method, hands
deduplication the concatenation of all non-failing methods results in
method order, and returns normally (`generate_leads` is a total function,
so no exception reaches the caller). -/
theorem generate_leads_partial_failure
    (env : String → Except String (List Lead)) (hasDb : Bool)
    (store : DatabaseService.Store) (methods : List String) (tenant_id m msg : String)
    (hm : m ∈ methods) (hf : process_method env m = .error msg) :
    (∃ errs,
      (generate_leads env hasDb store methods tenant_id).result.errors = some errs ∧
        ("Error in method " ++ m ++ ": " ++ msg) ∈ errs) ∧
    dictGet (generate_leads env hasDb store methods tenant_id).result.method_results m =
      some 0 ∧
    (collect_leads (process_method env) ([], [], []) methods).1 =
      (methods.map (okLeads (process_method env))).flatten ∧
    (generate_leads env hasDb store methods tenant_id).result.total_leads_found =
      (deduplicate_leads ((methods.map (okLeads (process_method env))).flatten)).length := by
  have herr := collect_leads_err_mem (process_method env) methods ([], [], []) m msg hm hf
  have hmres := collect_leads_mres (process_method env) methods ([], [], []) m msg hm hf
  have hfst := collect_leads_fst (process_method env) methods ([], [], [])
  refine ⟨?_, ?_, by simpa using hfst, ?_⟩
  · rw [generate_leads]
    dsimp only
    have hne : ¬((collect_leads (process_method env) ([], [], []) methods).2.2 = []) := by
      intro h0
      rw [h0] at herr
      cases herr
    rw [if_neg hne]
    exact ⟨_, rfl, herr⟩
  · rw [generate_leads]
    dsimp only
    exact hmres
  · rw [generate_leads]
    dsimp only
    rw [hfst]
    simp

/-- Witness for C2 at a concrete input: a single unknown method name, whose
dispatch raises `Unknown method: unknown_method`. -/
theorem generate_leads_partial_failure_witness :
    (∃ errs,
      (generate_leads (fun _ => Except.ok []) true ⟨[], [], 0⟩ ["unknown_method"]
        "t").result.errors = some errs ∧
        ("Error in method " ++ "unknown_method" ++ ": " ++
          ("Unknown method: " ++ "unknown_method")) ∈ errs) ∧
    dictGet
      ((generate_leads (fun _ => Except.ok []) true ⟨[], [], 0⟩ ["unknown_method"]
        "t").result.method_results) "unknown_method" = some 0 ∧
    (collect_leads (process_method (fun _ => Except.ok [])) ([], [], [])
        ["unknown_method"]).1 =
      (["unknown_method"].map (okLeads (process_method (fun _ => Except.ok [])))).flatten ∧
    (generate_leads (fun _ => Except.ok []) true ⟨[], [], 0⟩ ["unknown_method"]
        "t").result.total_leads_found =
      (deduplicate_leads
        ((["unknown_method"].map
          (okLeads (process_method (fun _ => Except.ok [])))).flatten)).length :=
  generate_leads_partial_failure (fun _ => Except.ok []) true ⟨[], [], 0⟩
    ["unknown_method"] "t" "unknown_method" ("Unknown method: " ++ "unknown_method")
    (by simp) rfl

/-- C8: on an empty methods list, `generate_leads` returns
`success = false`, zero lead and company counts, an empty
`method_results` map, zero total leads and `errors = None`, leaves the
store untouched, and never invokes the persistence delegate. -/
theorem generate_leads_empty_methods
    (env : String → Except String (List Lead)) (hasDb : Bool)
    (store : DatabaseService.Store) (tenant_id : String) :
    generate_leads env hasDb store [] tenant_id =
      ⟨⟨false, 0, 0, [], 0, none⟩, store, false⟩ := by
  simp [generate_leads, collect_leads, deduplicate_leads, dedupAux]

end WorkflowOrchestrator

end LeadsGen
